import Mathlib

/-!
Verification of the routing-and-task-orchestration core of the med-agent-hub
server (`server/sdk_agents/`): the routing classifier
(`RouterAgentExecutor._call_llm` / `_route_query`), the streamed-event relay
loop (`RouterAgentExecutor.execute`), the mode-based dispatcher
(`DispatchingExecutor`), and the leaf executors' cancellation behaviour
(`MedGemmaExecutor.cancel`, `ClinicalExecutor.cancel`).

Python values flowing through `json.loads` are modelled by the inductive
`JValue`; `json_loads` is a shallow embedding of Python's strict JSON
decoder (recursive descent with fuel).  The `TaskUpdater` class comes from
the a2a SDK library, whose code is not part of this repository; it is
modelled from the spec (transitions and artifact appends are rejected once
the task is in a terminal state).
-/

namespace MedAgentHub

/-- A decoded JSON value (the result of Python's `json.loads`).  Number
lexemes are kept verbatim: the routing code never inspects numeric values. -/
inductive JValue where
  | null
  | bool (b : Bool)
  | num (lexeme : String)
  | str (s : String)
  | arr (items : List JValue)
  | obj (fields : List (String × JValue))

/-- JSON whitespace characters. -/
def isJsonWs (c : Char) : Bool :=
  c = ' ' || c = '\t' || c = '\n' || c = '\r'

/-- Drop leading JSON whitespace. -/
def skipWs : List Char → List Char
  | [] => []
  | c :: cs => if isJsonWs c then skipWs cs else c :: cs

/-- Opening brace character (of a JSON object). -/
def lbrace : Char := Char.ofNat 123

/-- Closing brace character (of a JSON object). -/
def rbrace : Char := Char.ofNat 125

/-- Hexadecimal digit value, if any. -/
def hexVal (c : Char) : Option Nat :=
  if '0' ≤ c ∧ c ≤ '9' then some (c.toNat - '0'.toNat)
  else if 'a' ≤ c ∧ c ≤ 'f' then some (c.toNat - 'a'.toNat + 10)
  else if 'A' ≤ c ∧ c ≤ 'F' then some (c.toNat - 'A'.toNat + 10)
  else none

/-- Parse the body of a JSON string (the opening quote already consumed),
returning the decoded content and the remaining input.  As in Python's
strict decoder (`strict=True`, the default), a raw control character
(code point below 0x20, e.g. a literal newline or tab) is an error. -/
def parseStringBody : List Char → Option (String × List Char)
  | [] => none
  | c :: cs =>
    if c = '"' then some ("", cs)
    else if c.toNat < 32 then none
    else if c = '\\' then
      match cs with
      | [] => none
      | e :: cs' =>
        if e = 'u' then
          match cs' with
          | h1 :: h2 :: h3 :: h4 :: cs'' =>
            match hexVal h1, hexVal h2, hexVal h3, hexVal h4 with
            | some a, some b, some c1, some d =>
              match parseStringBody cs'' with
              | some (s, r) =>
                some (String.mk (Char.ofNat (((a * 16 + b) * 16 + c1) * 16 + d) :: s.data), r)
              | none => none
            | _, _, _, _ => none
          | _ => none
        else
          let dec : Option Char :=
            if e = '"' then some '"'
            else if e = '\\' then some '\\'
            else if e = '/' then some '/'
            else if e = 'b' then some (Char.ofNat 8)
            else if e = 'f' then some (Char.ofNat 12)
            else if e = 'n' then some '\n'
            else if e = 'r' then some '\r'
            else if e = 't' then some '\t'
            else none
          match dec with
          | some d =>
            match parseStringBody cs' with
            | some (s, r) => some (String.mk (d :: s.data), r)
            | none => none
          | none => none
    else
      match parseStringBody cs with
      | some (s, r) => some (String.mk (c :: s.data), r)
      | none => none

/-- Parse the digits of a JSON number after the optional sign, returning the
lexeme characters consumed and the rest; enforces the JSON grammar
(`0` or nonzero-led integer part, optional fraction and exponent). -/
def parseDigits : List Char → Option (List Char × List Char)
  | [] => none
  | c :: cs =>
    if c.isDigit then
      let rec takeDigits : List Char → List Char × List Char
        | [] => ([], [])
        | d :: ds =>
          if d.isDigit then
            let (t, r) := takeDigits ds
            (d :: t, r)
          else ([], d :: ds)
      let (t, r) := takeDigits cs
      if c = '0' ∧ t ≠ [] then none else some (c :: t, r)
    else none

/-- Parse an optional fraction part (`.digits`). -/
def parseFrac : List Char → Option (List Char × List Char)
  | [] => some ([], [])
  | c :: cs =>
    if c = '.' then
      match cs with
      | [] => none
      | d :: ds =>
        if d.isDigit then
          let rec takeDigits2 : List Char → List Char × List Char
            | [] => ([], [])
            | e :: es =>
              if e.isDigit then
                let (t, r) := takeDigits2 es
                (e :: t, r)
              else ([], e :: es)
          let (t, r) := takeDigits2 ds
          some ('.' :: d :: t, r)
        else none
    else some ([], c :: cs)

/-- Parse an optional exponent part (`e`/`E` sign digits). -/
def parseExp : List Char → Option (List Char × List Char)
  | [] => some ([], [])
  | c :: cs =>
    if c = 'e' ∨ c = 'E' then
      let (sgn, rest) :=
        match cs with
        | s :: ss => if s = '+' ∨ s = '-' then ([s], ss) else ([], cs)
        | [] => ([], cs)
      match rest with
      | [] => none
      | d :: ds =>
        if d.isDigit then
          let rec takeDigits3 : List Char → List Char × List Char
            | [] => ([], [])
            | e :: es =>
              if e.isDigit then
                let (t, r) := takeDigits3 es
                (e :: t, r)
              else ([], e :: es)
          let (t, r) := takeDigits3 ds
          some (c :: sgn ++ d :: t, r)
        else none
    else some ([], c :: cs)

/-- Parse a JSON number, returning its lexeme and the remaining input. -/
def parseNumber (cs : List Char) : Option (String × List Char) :=
  let (sgn, rest) :=
    match cs with
    | '-' :: cs' => (['-'], cs')
    | _ => ([], cs)
  match parseDigits rest with
  | none => none
  | some (intPart, r1) =>
    match parseFrac r1 with
    | none => none
    | some (fracPart, r2) =>
      match parseExp r2 with
      | none => none
      | some (expPart, r3) =>
        some (String.mk (sgn ++ intPart ++ fracPart ++ expPart), r3)

mutual

/-- Fuel-bounded recursive-descent parser for one JSON value.  Like
Python's `json.loads` it also accepts the non-standard constants `NaN`,
`Infinity` and `-Infinity` (stored as number lexemes). -/
def parseValue : Nat → List Char → Option (JValue × List Char)
  | 0, _ => none
  | Nat.succ fuel, cs =>
    match skipWs cs with
    | [] => none
    | c :: rest =>
      if c = 'n' then
        match rest with
        | 'u' :: 'l' :: 'l' :: r => some (.null, r)
        | _ => none
      else if c = 't' then
        match rest with
        | 'r' :: 'u' :: 'e' :: r => some (.bool true, r)
        | _ => none
      else if c = 'f' then
        match rest with
        | 'a' :: 'l' :: 's' :: 'e' :: r => some (.bool false, r)
        | _ => none
      else if c = '"' then
        match parseStringBody rest with
        | some (s, r) => some (.str s, r)
        | none => none
      else if c = '[' then
        match parseItems fuel rest with
        | some (items, r) => some (.arr items, r)
        | none => none
      else if c = lbrace then
        match parseFields fuel rest with
        | some (fields, r) => some (.obj fields, r)
        | none => none
      else if c = 'N' then
        match rest with
        | 'a' :: 'N' :: r => some (.num "NaN", r)
        | _ => none
      else if c = 'I' then
        match rest with
        | 'n' :: 'f' :: 'i' :: 'n' :: 'i' :: 't' :: 'y' :: r => some (.num "Infinity", r)
        | _ => none
      else if c = '-' ∨ c.isDigit then
        match parseNumber (c :: rest) with
        | some (lx, r) => some (.num lx, r)
        | none =>
          if c = '-' then
            match rest with
            | 'I' :: 'n' :: 'f' :: 'i' :: 'n' :: 'i' :: 't' :: 'y' :: r =>
              some (.num "-Infinity", r)
            | _ => none
          else none
      else none

/-- Parse the items of a JSON array (opening bracket already consumed). -/
def parseItems : Nat → List Char → Option (List JValue × List Char)
  | 0, _ => none
  | Nat.succ fuel, cs =>
    match skipWs cs with
    | ']' :: r => some ([], r)
    | cs' =>
      match parseValue fuel cs' with
      | none => none
      | some (v, r1) =>
        match skipWs r1 with
        | ',' :: r2 =>
          match parseItems fuel r2 with
          | some (vs, r3) => some (v :: vs, r3)
          | none => none
        | ']' :: r2 => some ([v], r2)
        | _ => none

/-- Parse the fields of a JSON object (opening brace already consumed). -/
def parseFields : Nat → List Char → Option (List (String × JValue) × List Char)
  | 0, _ => none
  | Nat.succ fuel, cs =>
    match skipWs cs with
    | [] => none
    | c :: rest =>
      if c = rbrace then some ([], rest)
      else if c = '"' then
        match parseStringBody rest with
        | none => none
        | some (k, r1) =>
          match skipWs r1 with
          | ':' :: r2 =>
            match parseValue fuel r2 with
            | none => none
            | some (v, r3) =>
              match skipWs r3 with
              | ',' :: r4 =>
                match parseFields fuel r4 with
                | some (fs, r5) => some ((k, v) :: fs, r5)
                | none => none
              | c' :: r4 =>
                if c' = rbrace then some ([(k, v)], r4) else none
              | [] => none
          | _ => none
      else none

end

/-- Python `dict.get k d` on the dictionary produced by `json.loads`:
with duplicate JSON keys the last occurrence wins, absent keys give the
default. -/
def dictGet (fields : List (String × JValue)) (k : String) (d : JValue) : JValue :=
  match fields.reverse.lookup k with
  | some v => v
  | none => d

/-- The routing decision dictionary returned by
`RouterAgentExecutor._route_query`. -/
structure RoutingResult where
  agent : String
  reasoning : JValue
  url : String

/-- The fallback decision built in `_route_query`'s `except` handler. -/
def fallbackResult : RoutingResult :=
  { agent := "medgemma",
    reasoning := .str "Default routing to medical agent due to orchestrator failure",
    url := "http://localhost:9101" }

/-- Lifecycle states of a tracked task (`a2a.types.TaskState` as used by
the source: `submitted → working → (completed | failed | cancelled)`, plus
the non-terminal `input_required`). -/
inductive TaskState where
  | submitted
  | working
  | inputRequired
  | completed
  | failed
  | cancelled
deriving DecidableEq, Repr

/-- The three terminal states. -/
def TaskState.isTerminal : TaskState → Bool
  | .completed => true
  | .failed => true
  | .cancelled => true
  | _ => false

/-- The Python enum member name (`state.name`), used when synthesizing a
status message for a relayed event that carries no text. -/
def TaskState.pyName : TaskState → String
  | .submitted => "submitted"
  | .working => "working"
  | .inputRequired => "input_required"
  | .completed => "completed"
  | .failed => "failed"
  | .cancelled => "cancelled"

/-- An artifact attached to a task: a name and its ordered text parts. -/
structure Artifact where
  name : String
  parts : List String
deriving DecidableEq, Repr

/-- The locally tracked task. -/
structure Task where
  id : String
  contextId : String
  state : TaskState
  artifacts : List Artifact
deriving DecidableEq, Repr

/-- Modelled from the spec: `new_task` (a2a SDK helper) creates a fresh
Task in the `submitted` state with no artifacts. -/
def new_task (id contextId : String) : Task :=
  { id := id, contextId := contextId, state := .submitted, artifacts := [] }

/-- The `TaskUpdater`'s view of the task plus the ordered log of status
transitions it has successfully emitted. -/
structure UpdaterState where
  task : Task
  emitted : List (TaskState × String)
deriving DecidableEq, Repr

/-- Modelled from the spec: `TaskUpdater.update_status` (a2a SDK, not in
this repository) transitions the task and emits the event; a call after a
terminal state was reached is a programming error — it is rejected
(raises), returning `none` here, and mutates nothing. -/
def updateStatus (u : UpdaterState) (s : TaskState) (msg : String) : Option UpdaterState :=
  if u.task.state.isTerminal then none
  else some { task := { u.task with state := s },
              emitted := u.emitted ++ [(s, msg)] }

/-- Modelled from the spec: `TaskUpdater.add_artifact` appends an artifact;
legal in any non-terminal state, rejected (raises) after a terminal state. -/
def addArtifact (u : UpdaterState) (parts : List String) (name : String) : Option UpdaterState :=
  if u.task.state.isTerminal then none
  else some { u with task := { u.task with artifacts := u.task.artifacts ++ [⟨name, parts⟩] } }

/-- One event yielded by the remote agent's stream, as discriminated by the
`isinstance` checks in `RouterAgentExecutor.execute`: a direct
`TaskArtifactUpdateEvent`, a direct `TaskStatusUpdateEvent`, the same two
wrapped in a `SendStreamingMessageSuccessResponse` envelope, or anything
else (skipped).  A status event's message is `none` when absent, otherwise
the text of its parts (a part with no text contributes `""`). -/
inductive RemoteEvent where
  | artifactUpdate (name : String) (parts : List String)
  | statusUpdate (state : TaskState) (message : Option (List String))
  | wrappedArtifact (name : String) (parts : List String)
  | wrappedStatus (state : TaskState) (message : Option (List String))
  | other
deriving DecidableEq, Repr

/-- The local mutable state of one `execute` invocation: the updater plus
the `produced_any` and `completed` flags. -/
structure RelayState where
  u : UpdaterState
  producedAny : Bool
  completed : Bool
deriving DecidableEq, Repr

/-- Outcome of a code region: normal return, or a Python exception
carrying its message, together with the task/updater state at that
moment. -/
inductive ExecResult where
  | ok (st : RelayState)
  | exn (st : RelayState) (msg : String)
deriving DecidableEq, Repr

/-- The state carried by either outcome. -/
def ExecResult.state : ExecResult → RelayState
  | .ok st => st
  | .exn st _ => st

/-- The status text relayed for a remote status event: the non-empty texts
of the event's message parts joined by newlines, or the synthesized
`Routed to <agent> (<state>)` line when the event carries no text
(`router_executor.py` lines 191–196). -/
def statusText (agent : String) (state : TaskState) (message : Option (List String)) : String :=
  let textParts : List String :=
    match message with
    | none => []
    | some parts => parts.filter (fun t => t ≠ "")
  if textParts ≠ [] then "\n".intercalate textParts
  else
    let sn := state.pyName
    s!"Routed to {agent} ({sn})"

/-- The body of the `async for` loop in `RouterAgentExecutor.execute`
(lines 181–219): relay an artifact event via `add_artifact`, a status
event via `update_status` (tracking `completed`), and skip anything else.
The wrapped variants are handled by the structurally identical
`SendStreamingMessageSuccessResponse` branch. -/
def processEvent (agent : String) (st : RelayState) : RemoteEvent → ExecResult
  | .artifactUpdate name parts =>
    match addArtifact st.u parts name with
    | none => .exn st "terminal state already reached"
    | some u => .ok { st with u := u, producedAny := true }
  | .statusUpdate state message =>
    match updateStatus st.u state (statusText agent state message) with
    | none => .exn st "terminal state already reached"
    | some u =>
      .ok { u := u, producedAny := true,
            completed := st.completed || state = .completed }
  | .wrappedArtifact name parts =>
    match addArtifact st.u parts name with
    | none => .exn st "terminal state already reached"
    | some u => .ok { st with u := u, producedAny := true }
  | .wrappedStatus state message =>
    match updateStatus st.u state (statusText agent state message) with
    | none => .exn st "terminal state already reached"
    | some u =>
      .ok { u := u, producedAny := true,
            completed := st.completed || state = .completed }
  | .other => .ok st

/-- The whole `async for` loop: process events in arrival order, stopping
at the first raised exception. -/
def relayEvents (agent : String) (st : RelayState) : List RemoteEvent → ExecResult
  | [] => .ok st
  | e :: es =>
    match processEvent agent st e with
    | .exn st' msg => .exn st' msg
    | .ok st' => relayEvents agent st' es

/-- Modelled from the spec: `TaskUpdater.complete()` is a `completed`
transition (rejected like any other once a terminal state was reached). -/
def completeCall (st : RelayState) (u1 : UpdaterState) : ExecResult :=
  match updateStatus u1 .completed "" with
  | none => .exn { st with u := u1 } "terminal state already reached"
  | some u2 => .ok { st with u := u2 }

/-- The post-loop block (lines 221–224): if the remote never signalled
completion, synthesize the one-line `router_summary` artifact when nothing
at all was relayed, then call `TaskUpdater.complete()`. -/
def finishRelay (agent : String) (st : RelayState) : ExecResult :=
  if st.completed then .ok st
  else
    match (if st.producedAny then some st.u
           else addArtifact st.u ["Routed to " ++ agent] "router_summary") with
    | none => .exn st "terminal state already reached"
    | some u1 => completeCall st u1

/-- The tail of the relay phase: an exception from the loop propagates, a
stream-level exception raised after the events propagates, otherwise the
post-loop completion block runs. -/
def afterRelay (agent : String) (streamError : Option String) (r : ExecResult) : ExecResult :=
  match r with
  | .exn st msg => .exn st msg
  | .ok st =>
    match streamError with
    | some msg => .exn st msg
    | none => finishRelay agent st

/-- The `try` block after the initial `working` transition succeeded:
agent-card discovery, then the relay loop and its aftermath. -/
def afterWorking (routing : RoutingResult) (discovery : Option String)
    (events : List RemoteEvent) (streamError : Option String)
    (u1 : UpdaterState) : ExecResult :=
  match discovery with
  | some msg => .exn { u := u1, producedAny := false, completed := false } msg
  | none =>
    afterRelay routing.agent streamError
      (relayEvents routing.agent { u := u1, producedAny := false, completed := false } events)

/-- The `try` block of `RouterAgentExecutor.execute` after the task
exists: the initial `working` transition, agent-card discovery (an
exception parameter, since the network is external), the relay loop, a
possible exception raised by the stream itself after its events, and the
post-loop completion block.  Routing (`_route_query`) never raises and is
passed in as its result. -/
def executeAttempt (routing : RoutingResult) (task0 : Task)
    (discovery : Option String) (events : List RemoteEvent)
    (streamError : Option String) : ExecResult :=
  match updateStatus { task := task0, emitted := [] } .working
      "Analyzing query and routing to appropriate agent..." with
  | none =>
    .exn { u := { task := task0, emitted := [] }, producedAny := false, completed := false }
      "terminal state already reached"
  | some u1 => afterWorking routing discovery events streamError u1

/-- `RouterAgentExecutor.execute` from the point where the task exists:
the `try` block above, plus the `except` handler (lines 226–231) that
records any exception as a `failed` transition.  If that transition is
itself rejected (task already terminal), the exception escapes `execute`. -/
def exceptHandler (st : RelayState) (msg : String) : ExecResult :=
  match updateStatus st.u .failed ("Routing failed: " ++ msg) with
  | some u => .ok { st with u := u }
  | none => .exn st msg

/-- `RouterAgentExecutor.execute` from the point where the task exists:
the `try` block above plus the `except` handler. -/
def executeModel (routing : RoutingResult) (task0 : Task)
    (discovery : Option String) (events : List RemoteEvent)
    (streamError : Option String) : ExecResult :=
  match executeAttempt routing task0 discovery events streamError with
  | .ok st => .ok st
  | .exn st msg => exceptHandler st msg

/-! ## Dispatching executor and cancellation -/

/-- The message attached to a request, as far as dispatch is concerned:
its optional `metadata` dictionary (`None` or a Python dict, decoded
values). -/
structure MessageModel where
  metadata : Option (List (String × JValue))

/-- The request context seen by `DispatchingExecutor`. -/
structure ContextModel where
  message : Option MessageModel

/-- The two execution strategies held by `DispatchingExecutor`. -/
inductive Strategy where
  | simple
  | react
deriving DecidableEq, Repr

/-- `DispatchingExecutor.execute`: read the `orchestrator_mode` flag out
of the message metadata (defaulting to `"simple"`; Python truthiness makes
a missing message, a `None` metadata and an empty metadata dict all skip
the lookup) and delegate to the react executor exactly when the flag
equals `"react"`. -/
def dispatchMode (ctx : ContextModel) : JValue :=
  match ctx.message with
  | none => .str "simple"
  | some m =>
    match m.metadata with
    | none => .str "simple"
    | some fields =>
      if fields.isEmpty then .str "simple"
      else dictGet fields "orchestrator_mode" (.str "simple")

/-- The delegation decision of `DispatchingExecutor.execute`: the react
executor exactly when the mode value equals the string `"react"`. -/
def dispatchExecute (ctx : ContextModel) : Strategy :=
  match dispatchMode ctx with
  | .str s => if s = "react" then .react else .simple
  | _ => .simple

/-- `RouterAgentExecutor.cancel` (`router_executor.py` lines 233–246):
builds a `TaskUpdater` for the in-flight task and calls
`update_status(state=cancelled, message="Query routing cancelled")` — one
`cancelled` transition with that fixed message, through the same
spec-modelled updater as the rest of the file. -/
def routerCancel (u : UpdaterState) : Option UpdaterState :=
  updateStatus u .cancelled "Query routing cancelled"

/-- `DispatchingExecutor.cancel`: unconditionally delegates to the simple
(direct) strategy's cancel, whatever `ctx` would have selected for
execution. -/
def dispatchCancel (ctx : ContextModel) (u : UpdaterState) : Option UpdaterState :=
  routerCancel u

/-- The error payloads raised by the leaf executors
(`a2a.types.UnsupportedOperationError`). -/
inductive A2AErrorPayload where
  | unsupportedOperation (message : String)
deriving DecidableEq, Repr

/-- `a2a.utils.errors.ServerError` wrapping an error payload. -/
structure ServerError where
  error : A2AErrorPayload
deriving DecidableEq, Repr

/-- `MedGemmaExecutor.cancel`: raises
`ServerError(UnsupportedOperationError(...))` before touching the task —
it can never return a task or emit a transition. -/
def medGemmaCancel (t : Task) : Except ServerError Task :=
  .error ⟨.unsupportedOperation "Cancel operation is not supported for MedGemma agent"⟩

/-- `ClinicalExecutor.cancel`: same shape as `MedGemmaCancel`, with the
Clinical agent's message. -/
def clinicalCancel (t : Task) : Except ServerError Task :=
  .error ⟨.unsupportedOperation "Cancel operation is not supported for Clinical agent"⟩

/-! ## Helper predicates over relay runs -/

/-- Whether a remote event is one of the two artifact-event shapes. -/
def RemoteEvent.isArtifactEvent : RemoteEvent → Bool
  | .artifactUpdate _ _ => true
  | .wrappedArtifact _ _ => true
  | _ => false

/-- Whether a remote event is a status event carrying `completed`. -/
def RemoteEvent.isCompletedStatus : RemoteEvent → Bool
  | .statusUpdate s _ => s = .completed
  | .wrappedStatus s _ => s = .completed
  | _ => false

/-- Whether relaying the event sets `produced_any` (every recognized event
does; only unrecognized events are skipped). -/
def RemoteEvent.touches : RemoteEvent → Bool
  | .other => false
  | _ => true

/-- Whether a remote event is a status event carrying a terminal state. -/
def RemoteEvent.isTerminalStatus : RemoteEvent → Bool
  | .statusUpdate s _ => s.isTerminal
  | .wrappedStatus s _ => s.isTerminal
  | _ => false

/-- The shape the spec's stream interface promises (§6): status and
artifact events, with a terminal status event only in final position. -/
def terminalOnlyLast : List RemoteEvent → Bool
  | [] => true
  | e :: es => if e.isTerminalStatus then es.isEmpty else terminalOnlyLast es

/-- The artifacts carried by a stream's artifact events, in arrival
order. -/
def eventArtifacts (events : List RemoteEvent) : List Artifact :=
  events.filterMap fun e =>
    match e with
    | .artifactUpdate name parts => some ⟨name, parts⟩
    | .wrappedArtifact name parts => some ⟨name, parts⟩
    | _ => none

/-- All logged transitions are to non-terminal states. -/
def allNonTerminal (l : List (TaskState × String)) : Bool :=
  l.all fun p => !p.1.isTerminal

/-- No transition is logged after a terminal one: only the last logged
transition may be terminal. -/
def noPostTerminal : List (TaskState × String) → Bool
  | [] => true
  | p :: rest => if p.1.isTerminal then rest.isEmpty else noPostTerminal rest

/-- Number of `completed` transitions in a log. -/
def countCompleted (l : List (TaskState × String)) : Nat :=
  (l.filter fun p => p.1 = TaskState.completed).length

/-- The invariant tying the task's current state to the transition log:
while the task is non-terminal every logged transition is non-terminal;
once terminal, only the final logged transition may be terminal. -/
def emittedInv (u : UpdaterState) : Bool :=
  if u.task.state.isTerminal then noPostTerminal u.emitted else allNonTerminal u.emitted

/-! ## Lemmas and theorems: routing classifier -/

theorem updateStatus_eq_some {u u' : UpdaterState} {s : TaskState} {m : String}
    (h : updateStatus u s m = some u') :
    u.task.state.isTerminal = false ∧
    u' = { task := { u.task with state := s }, emitted := u.emitted ++ [(s, m)] } := by
  unfold updateStatus at h
  split at h
  · cases h
  · rename_i hcond
    rw [Bool.not_eq_true] at hcond
    exact ⟨hcond, (Option.some.inj h).symm⟩

theorem updateStatus_eq_none {u : UpdaterState} {s : TaskState} {m : String}
    (h : updateStatus u s m = none) : u.task.state.isTerminal = true := by
  unfold updateStatus at h
  split at h
  · assumption
  · cases h

theorem addArtifact_eq_some {u u' : UpdaterState} {parts : List String} {name : String}
    (h : addArtifact u parts name = some u') :
    u.task.state.isTerminal = false ∧
    u' = { u with task := { u.task with artifacts := u.task.artifacts ++ [⟨name, parts⟩] } } := by
  unfold addArtifact at h
  split at h
  · cases h
  · rename_i hcond
    rw [Bool.not_eq_true] at hcond
    exact ⟨hcond, (Option.some.inj h).symm⟩

theorem addArtifact_eq_none {u : UpdaterState} {parts : List String} {name : String}
    (h : addArtifact u parts name = none) : u.task.state.isTerminal = true := by
  unfold addArtifact at h
  split at h
  · assumption
  · cases h

theorem allNonTerminal_noPostTerminal {l : List (TaskState × String)}
    (h : allNonTerminal l = true) : noPostTerminal l = true := by
  induction l with
  | nil => rfl
  | cons p rest ih =>
    have hp : p.1.isTerminal = false := by
      have := (List.all_eq_true.mp h) p (by simp)
      simpa using this
    have hrest : allNonTerminal rest = true :=
      List.all_eq_true.mpr fun q hq => (List.all_eq_true.mp h) q (by simp [hq])
    simpa [noPostTerminal, hp] using ih hrest

theorem noPostTerminal_append {l : List (TaskState × String)} {p : TaskState × String}
    (h : allNonTerminal l = true) : noPostTerminal (l ++ [p]) = true := by
  induction l with
  | nil =>
    show noPostTerminal [p] = true
    unfold noPostTerminal
    split <;> rfl
  | cons q rest ih =>
    have hq : q.1.isTerminal = false := by
      have := (List.all_eq_true.mp h) q (by simp)
      simpa using this
    have hrest : allNonTerminal rest = true :=
      List.all_eq_true.mpr fun r hr => (List.all_eq_true.mp h) r (by simp [hr])
    simpa [noPostTerminal, hq] using ih hrest

theorem allNonTerminal_append {l : List (TaskState × String)} {p : TaskState × String}
    (h : allNonTerminal l = true) (hp : p.1.isTerminal = false) :
    allNonTerminal (l ++ [p]) = true := by
  unfold allNonTerminal at h ⊢
  rw [List.all_append, h]
  simpa using hp

theorem emittedInv_empty (t : Task) : emittedInv { task := t, emitted := [] } = true := by
  unfold emittedInv
  split <;> rfl

theorem updateStatus_inv {u u' : UpdaterState} {s : TaskState} {m : String}
    (hinv : emittedInv u = true) (h : updateStatus u s m = some u') :
    emittedInv u' = true := by
  obtain ⟨hnt, rfl⟩ := updateStatus_eq_some h
  have hall : allNonTerminal u.emitted = true := by
    unfold emittedInv at hinv
    rw [hnt] at hinv
    simpa using hinv
  unfold emittedInv
  by_cases hs : s.isTerminal = true
  · simp only [hs]
    simpa using noPostTerminal_append (p := (s, m)) hall
  · rw [Bool.not_eq_true] at hs
    simp only [hs]
    simpa using allNonTerminal_append (p := (s, m)) hall hs

theorem addArtifact_inv {u u' : UpdaterState} {parts : List String} {name : String}
    (hinv : emittedInv u = true) (h : addArtifact u parts name = some u') :
    emittedInv u' = true := by
  obtain ⟨hnt, rfl⟩ := addArtifact_eq_some h
  simpa [emittedInv] using hinv

theorem countCompleted_le_one {l : List (TaskState × String)}
    (h : noPostTerminal l = true) : countCompleted l ≤ 1 := by
  induction l with
  | nil => simp [countCompleted]
  | cons p rest ih =>
    unfold noPostTerminal at h
    by_cases hp : p.1.isTerminal = true
    · rw [if_pos hp] at h
      have : rest = [] := by simpa using h
      subst this
      unfold countCompleted
      simp only [List.filter]
      split <;> simp
    · rw [if_neg hp] at h
      rw [Bool.not_eq_true] at hp
      have hpc : p.1 ≠ TaskState.completed := by
        intro he
        rw [he] at hp
        cases hp
      unfold countCompleted at ih ⊢
      simp only [List.filter]
      have : (decide (p.1 = TaskState.completed)) = false := by simpa using hpc
      rw [this]
      exact ih h

/-! ## Lemmas: one relayed event and the relay loop -/

theorem processEvent_ok_facts {agent : String} {st st2 : RelayState} {e : RemoteEvent}
    (h : processEvent agent st e = .ok st2) :
    st2.u.task.artifacts = st.u.task.artifacts ++ eventArtifacts [e] ∧
    st2.producedAny = (st.producedAny || e.touches) ∧
    (emittedInv st.u = true → emittedInv st2.u = true) := by
  cases e with
  | artifactUpdate name parts =>
    simp only [processEvent] at h
    cases haa : addArtifact st.u parts name with
    | none => rw [haa] at h; cases h
    | some u =>
      rw [haa] at h
      obtain rfl := ExecResult.ok.inj h
      obtain ⟨hnt, rfl⟩ := addArtifact_eq_some haa
      refine ⟨by simp [eventArtifacts, RemoteEvent.touches], by simp [RemoteEvent.touches], ?_⟩
      intro hinv
      exact addArtifact_inv hinv haa
  | wrappedArtifact name parts =>
    simp only [processEvent] at h
    cases haa : addArtifact st.u parts name with
    | none => rw [haa] at h; cases h
    | some u =>
      rw [haa] at h
      obtain rfl := ExecResult.ok.inj h
      obtain ⟨hnt, rfl⟩ := addArtifact_eq_some haa
      refine ⟨by simp [eventArtifacts, RemoteEvent.touches], by simp [RemoteEvent.touches], ?_⟩
      intro hinv
      exact addArtifact_inv hinv haa
  | statusUpdate state message =>
    simp only [processEvent] at h
    cases hus : updateStatus st.u state (statusText agent state message) with
    | none => rw [hus] at h; cases h
    | some u =>
      rw [hus] at h
      obtain rfl := ExecResult.ok.inj h
      obtain ⟨hnt, rfl⟩ := updateStatus_eq_some hus
      refine ⟨by simp [eventArtifacts, RemoteEvent.touches], by simp [RemoteEvent.touches], ?_⟩
      intro hinv
      exact updateStatus_inv hinv hus
  | wrappedStatus state message =>
    simp only [processEvent] at h
    cases hus : updateStatus st.u state (statusText agent state message) with
    | none => rw [hus] at h; cases h
    | some u =>
      rw [hus] at h
      obtain rfl := ExecResult.ok.inj h
      obtain ⟨hnt, rfl⟩ := updateStatus_eq_some hus
      refine ⟨by simp [eventArtifacts, RemoteEvent.touches], by simp [RemoteEvent.touches], ?_⟩
      intro hinv
      exact updateStatus_inv hinv hus
  | other =>
    simp only [processEvent] at h
    obtain rfl := ExecResult.ok.inj h
    exact ⟨by simp [eventArtifacts], by simp [RemoteEvent.touches], fun hinv => hinv⟩

theorem processEvent_exn_facts {agent : String} {st st2 : RelayState} {e : RemoteEvent}
    {m : String} (h : processEvent agent st e = .exn st2 m) :
    st2 = st ∧ st.u.task.state.isTerminal = true := by
  cases e with
  | artifactUpdate name parts =>
    simp only [processEvent] at h
    cases haa : addArtifact st.u parts name with
    | none =>
      rw [haa] at h
      exact ⟨(ExecResult.exn.inj h).1.symm, addArtifact_eq_none haa⟩
    | some u => rw [haa] at h; cases h
  | wrappedArtifact name parts =>
    simp only [processEvent] at h
    cases haa : addArtifact st.u parts name with
    | none =>
      rw [haa] at h
      exact ⟨(ExecResult.exn.inj h).1.symm, addArtifact_eq_none haa⟩
    | some u => rw [haa] at h; cases h
  | statusUpdate state message =>
    simp only [processEvent] at h
    cases hus : updateStatus st.u state (statusText agent state message) with
    | none =>
      rw [hus] at h
      exact ⟨(ExecResult.exn.inj h).1.symm, updateStatus_eq_none hus⟩
    | some u => rw [hus] at h; cases h
  | wrappedStatus state message =>
    simp only [processEvent] at h
    cases hus : updateStatus st.u state (statusText agent state message) with
    | none =>
      rw [hus] at h
      exact ⟨(ExecResult.exn.inj h).1.symm, updateStatus_eq_none hus⟩
    | some u => rw [hus] at h; cases h
  | other =>
    simp only [processEvent] at h
    cases h

theorem relayEvents_ok_facts {agent : String} {st st' : RelayState} {es : List RemoteEvent}
    (h : relayEvents agent st es = .ok st') :
    st'.u.task.artifacts = st.u.task.artifacts ++ eventArtifacts es ∧
    st'.producedAny = (st.producedAny || es.any RemoteEvent.touches) ∧
    (emittedInv st.u = true → emittedInv st'.u = true) := by
  induction es generalizing st with
  | nil =>
    obtain rfl : st = st' := ExecResult.ok.inj h
    simp [eventArtifacts]
  | cons e es ih =>
    simp only [relayEvents] at h
    cases hp : processEvent agent st e with
    | exn st2 m => rw [hp] at h; cases h
    | ok st2 =>
      rw [hp] at h
      obtain ⟨ha, hpr, hinv⟩ := processEvent_ok_facts hp
      obtain ⟨ha', hpr', hinv'⟩ := ih h
      refine ⟨?_, ?_, fun hi => hinv' (hinv hi)⟩
      · rw [ha', ha, List.append_assoc]
        have hcons : eventArtifacts [e] ++ eventArtifacts es = eventArtifacts (e :: es) := by
          unfold eventArtifacts
          rw [← List.filterMap_append, List.singleton_append]
        rw [hcons]
      · rw [hpr', hpr]
        simp [List.any_cons, Bool.or_assoc]

theorem relayEvents_exn_facts {agent : String} {st st2 : RelayState} {es : List RemoteEvent}
    {m : String} (h : relayEvents agent st es = .exn st2 m) :
    st2.u.task.state.isTerminal = true ∧
    (emittedInv st.u = true → emittedInv st2.u = true) ∧
    (es.all (fun e => !e.isArtifactEvent) = true →
      st2.u.task.artifacts = st.u.task.artifacts) := by
  induction es generalizing st with
  | nil => cases h
  | cons e es ih =>
    simp only [relayEvents] at h
    cases hp : processEvent agent st e with
    | exn st3 m3 =>
      rw [hp] at h
      obtain ⟨h1, h2⟩ := ExecResult.exn.inj h
      subst h1; subst h2
      obtain ⟨rfl, hterm⟩ := processEvent_exn_facts hp
      exact ⟨hterm, fun hi => hi, fun _ => rfl⟩
    | ok st3 =>
      rw [hp] at h
      obtain ⟨ha, hpr, hinv⟩ := processEvent_ok_facts hp
      obtain ⟨hterm, hinv', hart⟩ := ih h
      refine ⟨hterm, fun hi => hinv' (hinv hi), fun hall => ?_⟩
      have he : (!e.isArtifactEvent) = true := by
        have := (List.all_eq_true.mp hall) e (by simp)
        simpa using this
      have h0 : eventArtifacts [e] = [] := by
        cases e <;> simp_all [eventArtifacts, RemoteEvent.isArtifactEvent]
      have hrest : es.all (fun e => !e.isArtifactEvent) = true :=
        List.all_eq_true.mpr fun q hq => (List.all_eq_true.mp hall) q (by simp [hq])
      rw [hart hrest, ha, h0, List.append_nil]

/-! ## Lemmas: the completion block and the whole `execute` body -/

theorem updateStatus_of_nonterminal {u : UpdaterState} {s : TaskState} {m : String}
    (h : u.task.state.isTerminal = false) :
    updateStatus u s m =
      some { task := { u.task with state := s }, emitted := u.emitted ++ [(s, m)] } := by
  unfold updateStatus
  rw [h]
  simp

theorem updateStatus_of_terminal {u : UpdaterState} {s : TaskState} {m : String}
    (h : u.task.state.isTerminal = true) : updateStatus u s m = none := by
  unfold updateStatus
  rw [h]
  simp

theorem completeCall_inv {st : RelayState} {u1 : UpdaterState}
    (hinv : emittedInv u1 = true) :
    emittedInv ((completeCall st u1).state).u = true := by
  unfold completeCall
  cases hus : updateStatus u1 .completed "" with
  | none => exact hinv
  | some u2 => exact updateStatus_inv hinv hus

theorem completeCall_state_artifacts (st : RelayState) (u1 : UpdaterState) :
    ((completeCall st u1).state).u.task.artifacts = u1.task.artifacts := by
  unfold completeCall
  cases hus : updateStatus u1 .completed "" with
  | none => rfl
  | some u2 =>
    obtain ⟨hnt, rfl⟩ := updateStatus_eq_some hus
    rfl

theorem completeCall_exn_terminal {st : RelayState} {u1 : UpdaterState}
    {st2 : RelayState} {m : String} (h : completeCall st u1 = .exn st2 m) :
    st2.u.task.state.isTerminal = true := by
  unfold completeCall at h
  cases hus : updateStatus u1 .completed "" with
  | none =>
    rw [hus] at h
    obtain ⟨h1, h2⟩ := ExecResult.exn.inj h
    subst h1
    exact updateStatus_eq_none hus
  | some u2 => rw [hus] at h; cases h

theorem finishRelay_eq_completed {agent : String} {st : RelayState}
    (hc : st.completed = true) : finishRelay agent st = .ok st := by
  unfold finishRelay
  rw [hc]
  simp

theorem finishRelay_eq_relayed {agent : String} {st : RelayState}
    (hc : st.completed = false) (hp : st.producedAny = true) :
    finishRelay agent st = completeCall st st.u := by
  unfold finishRelay
  rw [hc, hp]
  simp

theorem finishRelay_eq_silent {agent : String} {st : RelayState}
    (hc : st.completed = false) (hp : st.producedAny = false) :
    finishRelay agent st =
      match addArtifact st.u ["Routed to " ++ agent] "router_summary" with
      | none => .exn st "terminal state already reached"
      | some u1 => completeCall st u1 := by
  unfold finishRelay
  rw [hc, hp]
  simp

theorem finishRelay_inv {agent : String} {st : RelayState}
    (hinv : emittedInv st.u = true) :
    emittedInv ((finishRelay agent st).state).u = true := by
  by_cases hc : st.completed = true
  · rw [finishRelay_eq_completed hc]
    exact hinv
  · rw [Bool.not_eq_true] at hc
    by_cases hp : st.producedAny = true
    · rw [finishRelay_eq_relayed hc hp]
      exact completeCall_inv hinv
    · rw [Bool.not_eq_true] at hp
      rw [finishRelay_eq_silent hc hp]
      cases haa : addArtifact st.u ["Routed to " ++ agent] "router_summary" with
      | none => exact hinv
      | some u1 => exact completeCall_inv (addArtifact_inv hinv haa)

theorem finishRelay_state_artifacts {agent : String} {st : RelayState}
    (hp : st.producedAny = true) :
    ((finishRelay agent st).state).u.task.artifacts = st.u.task.artifacts := by
  by_cases hc : st.completed = true
  · rw [finishRelay_eq_completed hc]
    rfl
  · rw [Bool.not_eq_true] at hc
    rw [finishRelay_eq_relayed hc hp]
    exact completeCall_state_artifacts st st.u

theorem finishRelay_exn_terminal {agent : String} {st st2 : RelayState} {m : String}
    (h : finishRelay agent st = .exn st2 m) :
    st2.u.task.state.isTerminal = true := by
  by_cases hc : st.completed = true
  · rw [finishRelay_eq_completed hc] at h
    cases h
  · rw [Bool.not_eq_true] at hc
    by_cases hp : st.producedAny = true
    · rw [finishRelay_eq_relayed hc hp] at h
      exact completeCall_exn_terminal h
    · rw [Bool.not_eq_true] at hp
      rw [finishRelay_eq_silent hc hp] at h
      cases haa : addArtifact st.u ["Routed to " ++ agent] "router_summary" with
      | none =>
        rw [haa] at h
        obtain ⟨h1, h2⟩ := ExecResult.exn.inj h
        subst h1
        exact addArtifact_eq_none haa
      | some u1 =>
        rw [haa] at h
        exact completeCall_exn_terminal h

theorem finishRelay_ok_of_producedAny {agent : String} {st st' : RelayState}
    (hp : st.producedAny = true) (h : finishRelay agent st = .ok st') :
    st'.u.task.artifacts = st.u.task.artifacts := by
  have hs := @finishRelay_state_artifacts agent st hp
  rw [h] at hs
  exact hs

theorem afterWorking_inv (routing : RoutingResult) (discovery : Option String)
    (events : List RemoteEvent) (streamError : Option String) (u1 : UpdaterState)
    (hinv1 : emittedInv u1 = true) :
    emittedInv
      (((afterWorking routing discovery events streamError u1).state).u) = true := by
  unfold afterWorking
  cases discovery with
  | some msg => exact hinv1
  | none =>
    unfold afterRelay
    cases hre : relayEvents routing.agent
        { u := u1, producedAny := false, completed := false } events with
    | exn st msg => exact (relayEvents_exn_facts hre).2.1 hinv1
    | ok st =>
      have hinv2 : emittedInv st.u = true := (relayEvents_ok_facts hre).2.2 hinv1
      cases streamError with
      | some msg => exact hinv2
      | none => exact finishRelay_inv hinv2

theorem executeAttempt_inv (routing : RoutingResult) (task0 : Task)
    (discovery : Option String) (events : List RemoteEvent)
    (streamError : Option String) :
    emittedInv
      (((executeAttempt routing task0 discovery events streamError).state).u) = true := by
  unfold executeAttempt
  cases hws : updateStatus { task := task0, emitted := [] } .working
      "Analyzing query and routing to appropriate agent..." with
  | none => exact emittedInv_empty task0
  | some u1 =>
    exact afterWorking_inv routing discovery events streamError u1
      (updateStatus_inv (emittedInv_empty task0) hws)

theorem exceptHandler_inv {st : RelayState} {msg : String}
    (hinv : emittedInv st.u = true) :
    emittedInv ((exceptHandler st msg).state).u = true := by
  unfold exceptHandler
  cases hus : updateStatus st.u .failed ("Routing failed: " ++ msg) with
  | none => exact hinv
  | some u => exact updateStatus_inv hinv hus

theorem executeModel_inv (routing : RoutingResult) (task0 : Task)
    (discovery : Option String) (events : List RemoteEvent)
    (streamError : Option String) :
    emittedInv
      (((executeModel routing task0 discovery events streamError).state).u) = true := by
  have hatt := executeAttempt_inv routing task0 discovery events streamError
  unfold executeModel
  cases hea : executeAttempt routing task0 discovery events streamError with
  | ok st =>
    rw [hea] at hatt
    exact hatt
  | exn st msg =>
    rw [hea] at hatt
    exact exceptHandler_inv hatt

/-! ## Lemmas: event-shape helpers and end-to-end artifact accounting -/

theorem touches_of_artifact {e : RemoteEvent} (h : e.isArtifactEvent = true) :
    e.touches = true := by
  cases e <;> simp_all [RemoteEvent.isArtifactEvent, RemoteEvent.touches]

theorem touches_of_completedStatus {e : RemoteEvent} (h : e.isCompletedStatus = true) :
    e.touches = true := by
  cases e <;> simp_all [RemoteEvent.isCompletedStatus, RemoteEvent.touches]

theorem any_touches_of_any_completed {events : List RemoteEvent}
    (h : events.any RemoteEvent.isCompletedStatus = true) :
    events.any RemoteEvent.touches = true := by
  obtain ⟨e, he, hc⟩ := List.any_eq_true.mp h
  exact List.any_eq_true.mpr ⟨e, he, touches_of_completedStatus hc⟩

theorem any_touches_of_eventArtifacts_ne {events : List RemoteEvent}
    (h : eventArtifacts events ≠ []) : events.any RemoteEvent.touches = true := by
  induction events with
  | nil => exact absurd rfl h
  | cons e es ih =>
    by_cases he : e.touches = true
    · simp [List.any_cons, he]
    · have heo : e = RemoteEvent.other := by
        cases e <;> simp_all [RemoteEvent.touches]
      subst heo
      have h' : eventArtifacts es ≠ [] := by
        simpa [eventArtifacts, List.filterMap_cons] using h
      simp [List.any_cons, RemoteEvent.touches, ih h']

theorem eventArtifacts_nil_of_all {events : List RemoteEvent}
    (hall : events.all (fun e => !e.isArtifactEvent) = true) :
    eventArtifacts events = [] := by
  induction events with
  | nil => rfl
  | cons e es ih =>
    have he : e.isArtifactEvent = false := by
      have := (List.all_eq_true.mp hall) e (by simp)
      simpa using this
    have hrest : es.all (fun e => !e.isArtifactEvent) = true :=
      List.all_eq_true.mpr fun q hq => (List.all_eq_true.mp hall) q (by simp [hq])
    cases e <;> simp_all [eventArtifacts, RemoteEvent.isArtifactEvent, List.filterMap_cons]

theorem relayEvents_all_other {agent : String} {st : RelayState} {events : List RemoteEvent}
    (hall : events.all (fun e => decide (e = RemoteEvent.other)) = true) :
    relayEvents agent st events = .ok st := by
  induction events with
  | nil => rfl
  | cons e es ih =>
    have heo : e = RemoteEvent.other := by
      have := (List.all_eq_true.mp hall) e (by simp)
      simpa using this
    subst heo
    have hrest : es.all (fun e => decide (e = RemoteEvent.other)) = true :=
      List.all_eq_true.mpr fun q hq => (List.all_eq_true.mp hall) q (by simp [hq])
    exact ih hrest

theorem addArtifact_of_nonterminal {u : UpdaterState} {parts : List String} {name : String}
    (h : u.task.state.isTerminal = false) :
    addArtifact u parts name =
      some { u with task := { u.task with artifacts := u.task.artifacts ++ [⟨name, parts⟩] } } := by
  unfold addArtifact
  rw [h]
  simp

theorem exceptHandler_state_artifacts (st : RelayState) (msg : String) :
    ((exceptHandler st msg).state).u.task.artifacts = st.u.task.artifacts := by
  unfold exceptHandler
  cases hus : updateStatus st.u .failed ("Routing failed: " ++ msg) with
  | none => rfl
  | some u =>
    obtain ⟨hnt, rfl⟩ := updateStatus_eq_some hus
    rfl

theorem executeModel_state_artifacts (routing : RoutingResult) (task0 : Task)
    (discovery : Option String) (events : List RemoteEvent) (streamError : Option String) :
    ((executeModel routing task0 discovery events streamError).state).u.task.artifacts =
      ((executeAttempt routing task0 discovery events streamError).state).u.task.artifacts := by
  unfold executeModel
  cases hea : executeAttempt routing task0 discovery events streamError with
  | ok st => rfl
  | exn st msg => exact exceptHandler_state_artifacts st msg

theorem afterWorking_state_artifacts {routing : RoutingResult} {events : List RemoteEvent}
    {streamError : Option String} (discovery : Option String) (u1 : UpdaterState)
    (hall : events.all (fun e => !e.isArtifactEvent) = true)
    (hany : events.any RemoteEvent.touches = true) :
    ((afterWorking routing discovery events streamError u1).state).u.task.artifacts =
      u1.task.artifacts := by
  unfold afterWorking
  cases discovery with
  | some msg => rfl
  | none =>
    unfold afterRelay
    cases hre : relayEvents routing.agent
        { u := u1, producedAny := false, completed := false } events with
    | exn st msg => exact (relayEvents_exn_facts hre).2.2 hall
    | ok st =>
      obtain ⟨ha, hpr, _⟩ := relayEvents_ok_facts hre
      have hart : st.u.task.artifacts = u1.task.artifacts := by
        have ha' : st.u.task.artifacts = u1.task.artifacts ++ eventArtifacts events := ha
        rw [ha', eventArtifacts_nil_of_all hall, List.append_nil]
      have hpa : st.producedAny = true := by
        have hpr' : st.producedAny = (false || events.any RemoteEvent.touches) := hpr
        rw [hany] at hpr'
        simpa using hpr'
      cases streamError with
      | some msg => exact hart
      | none =>
        have hfin := @finishRelay_state_artifacts routing.agent st hpa
        rw [hfin, hart]

theorem executeAttempt_state_artifacts (routing : RoutingResult) (task0 : Task)
    (discovery : Option String) (events : List RemoteEvent) (streamError : Option String)
    (hall : events.all (fun e => !e.isArtifactEvent) = true)
    (hany : events.any RemoteEvent.touches = true) :
    ((executeAttempt routing task0 discovery events streamError).state).u.task.artifacts =
      task0.artifacts := by
  unfold executeAttempt
  cases hws : updateStatus { task := task0, emitted := [] } .working
      "Analyzing query and routing to appropriate agent..." with
  | none => rfl
  | some u1 =>
    obtain ⟨hnt0, hu1⟩ := updateStatus_eq_some hws
    have hstep := @afterWorking_state_artifacts routing events streamError discovery u1
      hall hany
    have hart : u1.task.artifacts = task0.artifacts := by rw [hu1]
    rw [hart] at hstep
    exact hstep

theorem executeAttempt_ok_artifacts {routing : RoutingResult} {task0 : Task}
    {events : List RemoteEvent} {streamError : Option String} {st0 : RelayState}
    (hpa : events.any RemoteEvent.touches = true)
    (hea : executeAttempt routing task0 none events streamError = .ok st0) :
    st0.u.task.artifacts = task0.artifacts ++ eventArtifacts events := by
  unfold executeAttempt at hea
  cases hws : updateStatus { task := task0, emitted := [] } .working
      "Analyzing query and routing to appropriate agent..." with
  | none => rw [hws] at hea; cases hea
  | some u1 =>
    rw [hws] at hea
    have hea' : afterWorking routing none events streamError u1 = .ok st0 := hea
    obtain ⟨hnt0, hu1⟩ := updateStatus_eq_some hws
    unfold afterWorking at hea'
    have hea2 : afterRelay routing.agent streamError
        (relayEvents routing.agent { u := u1, producedAny := false, completed := false } events)
          = .ok st0 := hea'
    cases hre : relayEvents routing.agent
        { u := u1, producedAny := false, completed := false } events with
    | exn st2 m2 =>
      rw [hre] at hea2
      cases (show ExecResult.exn st2 m2 = .ok st0 from hea2)
    | ok st2 =>
      rw [hre] at hea2
      obtain ⟨ha, hpr, _⟩ := relayEvents_ok_facts hre
      have ha' : st2.u.task.artifacts = task0.artifacts ++ eventArtifacts events := by
        have ha2 : st2.u.task.artifacts = u1.task.artifacts ++ eventArtifacts events := ha
        have hart : u1.task.artifacts = task0.artifacts := by rw [hu1]
        rw [ha2, hart]
      have hpa2 : st2.producedAny = true := by
        have hpr' : st2.producedAny = (false || events.any RemoteEvent.touches) := hpr
        rw [hpa] at hpr'
        simpa using hpr'
      have h3 : (match streamError with
                 | some m => ExecResult.exn st2 m
                 | none => finishRelay routing.agent st2) = .ok st0 := hea2
      cases streamError with
      | some m => cases (show ExecResult.exn st2 m = .ok st0 from h3)
      | none =>
        have h4 : finishRelay routing.agent st2 = .ok st0 := h3
        rw [finishRelay_ok_of_producedAny hpa2 h4]
        exact ha'

theorem executeAttempt_exn_artifacts {routing : RoutingResult} {task0 : Task}
    {events : List RemoteEvent} {streamError : Option String} {st' : RelayState} {msg : String}
    (hea : executeAttempt routing task0 none events streamError = .exn st' msg)
    (hnt : st'.u.task.state.isTerminal = false) :
    st'.u.task.artifacts = task0.artifacts ++ eventArtifacts events := by
  unfold executeAttempt at hea
  cases hws : updateStatus { task := task0, emitted := [] } .working
      "Analyzing query and routing to appropriate agent..." with
  | none =>
    rw [hws] at hea
    obtain ⟨h1, h2⟩ := ExecResult.exn.inj hea
    have hterm : task0.state.isTerminal = true := updateStatus_eq_none hws
    have hnt' : task0.state.isTerminal = false := by rw [← h1] at hnt; exact hnt
    rw [hterm] at hnt'
    cases hnt'
  | some u1 =>
    rw [hws] at hea
    have hea' : afterWorking routing none events streamError u1 = .exn st' msg := hea
    obtain ⟨hnt0, hu1⟩ := updateStatus_eq_some hws
    unfold afterWorking at hea'
    have hea2 : afterRelay routing.agent streamError
        (relayEvents routing.agent { u := u1, producedAny := false, completed := false } events)
          = .exn st' msg := hea'
    cases hre : relayEvents routing.agent
        { u := u1, producedAny := false, completed := false } events with
    | exn st2 m2 =>
      rw [hre] at hea2
      obtain ⟨h1, h2⟩ := ExecResult.exn.inj (show ExecResult.exn st2 m2 = .exn st' msg from hea2)
      have hterm := (relayEvents_exn_facts hre).1
      rw [h1] at hterm
      rw [hterm] at hnt
      cases hnt
    | ok st2 =>
      rw [hre] at hea2
      have h3 : (match streamError with
                 | some m => ExecResult.exn st2 m
                 | none => finishRelay routing.agent st2) = .exn st' msg := hea2
      cases streamError with
      | some m =>
        obtain ⟨h1, h2⟩ := ExecResult.exn.inj (show ExecResult.exn st2 m = .exn st' msg from h3)
        obtain ⟨ha, hpr, _⟩ := relayEvents_ok_facts hre
        have ha2 : st2.u.task.artifacts = u1.task.artifacts ++ eventArtifacts events := ha
        have hart : u1.task.artifacts = task0.artifacts := by rw [hu1]
        rw [← h1, ha2, hart]
      | none =>
        have hterm := finishRelay_exn_terminal
          (show finishRelay routing.agent st2 = .exn st' msg from h3)
        rw [hterm] at hnt
        cases hnt

theorem completeCall_of_nonterminal {st : RelayState} {u1 : UpdaterState}
    (h : u1.task.state.isTerminal = false) :
    completeCall st u1 =
      .ok { st with u :=
        { task := { u1.task with state := .completed },
          emitted := u1.emitted ++ [(.completed, "")] } } := by
  unfold completeCall
  rw [updateStatus_of_nonterminal h]

theorem finishRelay_silent_ok {agent : String} {st : RelayState}
    (hc : st.completed = false) (hp : st.producedAny = false)
    (hnt : st.u.task.state.isTerminal = false) :
    finishRelay agent st =
      .ok { st with u :=
        { task :=
            { st.u.task with
              state := .completed,
              artifacts := st.u.task.artifacts ++
                [⟨"router_summary", ["Routed to " ++ agent]⟩] },
          emitted := st.u.emitted ++ [(.completed, "")] } } := by
  rw [finishRelay_eq_silent hc hp, addArtifact_of_nonterminal hnt]
  show completeCall st
      { st.u with task :=
          { st.u.task with
            artifacts := st.u.task.artifacts ++
              [⟨"router_summary", ["Routed to " ++ agent]⟩] } } = _
  rw [completeCall_of_nonterminal
    (show ({ st.u with task :=
        { st.u.task with
          artifacts := st.u.task.artifacts ++
            [⟨"router_summary", ["Routed to " ++ agent]⟩] } } : UpdaterState).task.state.isTerminal
        = false from hnt)]

theorem executeAttempt_silent {routing : RoutingResult} {task0 : Task}
    {events : List RemoteEvent}
    (hnt : task0.state.isTerminal = false)
    (hall : events.all (fun e => decide (e = RemoteEvent.other)) = true) :
    executeAttempt routing task0 none events none =
      .ok { u := { task := { id := task0.id, contextId := task0.contextId,
                             state := .completed,
                             artifacts := task0.artifacts ++
                               [⟨"router_summary", ["Routed to " ++ routing.agent]⟩] },
                   emitted := [(.working, "Analyzing query and routing to appropriate agent..."),
                               (.completed, "")] },
            producedAny := false, completed := false } := by
  have hws : updateStatus { task := task0, emitted := [] } .working
      "Analyzing query and routing to appropriate agent..." =
      some { task := { id := task0.id, contextId := task0.contextId, state := .working,
                       artifacts := task0.artifacts },
             emitted := [(.working, "Analyzing query and routing to appropriate agent...")] } := by
    rw [updateStatus_of_nonterminal hnt]
    rfl
  unfold executeAttempt
  rw [hws]
  show afterWorking routing none events none
      { task := { id := task0.id, contextId := task0.contextId, state := .working,
                  artifacts := task0.artifacts },
        emitted := [(.working, "Analyzing query and routing to appropriate agent...")] } = _
  unfold afterWorking
  show afterRelay routing.agent none
      (relayEvents routing.agent
        { u := { task := { id := task0.id, contextId := task0.contextId, state := .working,
                           artifacts := task0.artifacts },
                 emitted := [(.working, "Analyzing query and routing to appropriate agent...")] },
          producedAny := false, completed := false } events) = _
  rw [relayEvents_all_other hall]
  show finishRelay routing.agent
      { u := { task := { id := task0.id, contextId := task0.contextId, state := .working,
                         artifacts := task0.artifacts },
               emitted := [(.working, "Analyzing query and routing to appropriate agent...")] },
        producedAny := false, completed := false } = _
  rw [@finishRelay_silent_ok routing.agent
    { u := { task := { id := task0.id, contextId := task0.contextId, state := .working,
                       artifacts := task0.artifacts },
             emitted := [(.working,
                          "Analyzing query and routing to appropriate agent...")] },
      producedAny := false, completed := false } rfl rfl rfl]
  rfl

/-! ## Theorems for the relay-loop claims -/

/-- C1 counterexample: a remote stream with zero ArtifactEvents and one
`completed` StatusEvent leaves the final Task `completed` with an empty
artifact list — no summary artifact is synthesized, because the relayed
status event set both `produced_any` and `completed`, skipping the
post-loop block entirely. -/
theorem relay_completed_no_summary_cex :
    executeModel fallbackResult (new_task "t1" "c1") none
        [RemoteEvent.statusUpdate .completed none] none =
      .ok { u := { task := { id := "t1", contextId := "c1", state := .completed,
                             artifacts := [] },
                   emitted := [(.working, "Analyzing query and routing to appropriate agent..."),
                               (.completed, "Routed to medgemma (completed)")] },
            producedAny := true, completed := true } := by
  decide

/-- C1 amended: when the remote stream is relayed without any
ArtifactEvent, the final Task's artifact list is exactly the initial one —
in particular empty when a `completed` StatusEvent arrived on a fresh
task — and the single synthesized `router_summary` artifact appears
exactly when no event at all was relayed (and no error occurred). -/
theorem relay_summary_amended (routing : RoutingResult) (task0 : Task)
    (discovery : Option String) (events : List RemoteEvent)
    (streamError : Option String) :
    (events.all (fun e => !e.isArtifactEvent) = true →
     events.any RemoteEvent.isCompletedStatus = true →
     ((executeModel routing task0 discovery events streamError).state).u.task.artifacts =
       task0.artifacts) ∧
    (task0.state.isTerminal = false → task0.artifacts = [] →
     events.all (fun e => decide (e = RemoteEvent.other)) = true →
     executeModel routing task0 none events none =
       .ok { u := { task := { id := task0.id, contextId := task0.contextId,
                              state := .completed,
                              artifacts := [⟨"router_summary",
                                             ["Routed to " ++ routing.agent]⟩] },
                    emitted := [(.working,
                                 "Analyzing query and routing to appropriate agent..."),
                                (.completed, "")] },
             producedAny := false, completed := false }) := by
  constructor
  · intro hall hany
    have h1 := executeModel_state_artifacts routing task0 discovery events streamError
    have h2 := executeAttempt_state_artifacts routing task0 discovery events streamError
      hall (any_touches_of_any_completed hany)
    rw [h1, h2]
  · intro hnt hart hall
    have hatt := @executeAttempt_silent routing task0 events hnt hall
    unfold executeModel
    rw [hatt, hart]
    rfl

/-- Witness for C1 (amended): a completed status on a fresh task leaves no
artifacts; a stream of only unrecognized events yields exactly the
synthesized summary. -/
theorem relay_summary_amended_witness :
    ((executeModel fallbackResult (new_task "t1" "c1") none
        [RemoteEvent.statusUpdate .completed none] none).state).u.task.artifacts =
      (new_task "t1" "c1").artifacts ∧
    executeModel fallbackResult (new_task "t2" "c2") none [RemoteEvent.other] none =
      .ok { u := { task := { id := "t2", contextId := "c2", state := .completed,
                             artifacts := [⟨"router_summary", ["Routed to medgemma"]⟩] },
                   emitted := [(.working, "Analyzing query and routing to appropriate agent..."),
                               (.completed, "")] },
            producedAny := false, completed := false } :=
  ⟨(relay_summary_amended fallbackResult (new_task "t1" "c1") none
      [RemoteEvent.statusUpdate .completed none] none).1 (by decide) (by decide),
   (relay_summary_amended fallbackResult (new_task "t2" "c2") none
      [RemoteEvent.other] none).2 (by decide) (by decide) (by decide)⟩

/-- C2: over any run of `execute`, the log of successfully emitted status
transitions never continues past a terminal transition, and in particular
at most one `completed` transition is emitted — counting both relayed
completed StatusEvents and the wrapper's own `complete()` call.  (The
`TaskUpdater` rejecting post-terminal transitions is modelled from the
spec.) -/
theorem relay_terminal_once (routing : RoutingResult) (task0 : Task)
    (discovery : Option String) (events : List RemoteEvent)
    (streamError : Option String) :
    noPostTerminal
      (((executeModel routing task0 discovery events streamError).state).u.emitted) = true ∧
    countCompleted
      (((executeModel routing task0 discovery events streamError).state).u.emitted) ≤ 1 := by
  have hinv := executeModel_inv routing task0 discovery events streamError
  have hnp : noPostTerminal
      (((executeModel routing task0 discovery events streamError).state).u.emitted) = true := by
    unfold emittedInv at hinv
    split at hinv
    · exact hinv
    · exact allNonTerminal_noPostTerminal hinv
  exact ⟨hnp, countCompleted_le_one hnp⟩

/-- C5 counterexample: the remote stream relays a `completed` status and
then the stream itself raises; the `except` handler's own `failed`
transition is rejected (the task is already terminal), so the exception
escapes `execute` instead of being recorded. -/
theorem execute_reraise_after_terminal_cex :
    executeModel fallbackResult (new_task "t1" "c1") none
        [RemoteEvent.statusUpdate .completed none] (some "connection reset") =
      .exn { u := { task := { id := "t1", contextId := "c1", state := .completed,
                              artifacts := [] },
                    emitted := [(.working, "Analyzing query and routing to appropriate agent..."),
                                (.completed, "Routed to medgemma (completed)")] },
             producedAny := true, completed := true } "connection reset" := by
  decide

/-- C5 amended: an exception raised inside `execute` after the task exists
is recorded as a `failed` transition carrying the cause and `execute`
returns normally — provided the task is not already terminal; when it is,
the handler's own transition is rejected and the exception propagates. -/
theorem execute_failure_recorded (routing : RoutingResult) (task0 : Task)
    (discovery : Option String) (events : List RemoteEvent) (streamError : Option String)
    (st : RelayState) (msg : String)
    (hexn : executeAttempt routing task0 discovery events streamError = .exn st msg) :
    (st.u.task.state.isTerminal = false →
      executeModel routing task0 discovery events streamError =
        .ok { st with u := { task := { st.u.task with state := .failed },
                             emitted := st.u.emitted ++
                               [(.failed, "Routing failed: " ++ msg)] } }) ∧
    (st.u.task.state.isTerminal = true →
      executeModel routing task0 discovery events streamError = .exn st msg) := by
  constructor
  · intro hnt
    unfold executeModel
    rw [hexn]
    show exceptHandler st msg = _
    unfold exceptHandler
    rw [updateStatus_of_nonterminal hnt]
  · intro ht
    unfold executeModel
    rw [hexn]
    show exceptHandler st msg = _
    unfold exceptHandler
    rw [updateStatus_of_terminal ht]

/-- Witness for C5 (amended): a discovery failure while the task is still
`working` is recorded as a `failed` transition naming the cause. -/
theorem execute_failure_recorded_witness :
    executeModel fallbackResult (new_task "t1" "c1") (some "card fetch failed") [] none =
      .ok { u := { task := { id := "t1", contextId := "c1", state := .failed,
                             artifacts := [] },
                   emitted := [(.working, "Analyzing query and routing to appropriate agent..."),
                               (.failed, "Routing failed: card fetch failed")] },
            producedAny := false, completed := false } :=
  (execute_failure_recorded fallbackResult (new_task "t1" "c1") (some "card fetch failed")
    [] none
    { u := { task := { id := "t1", contextId := "c1", state := .working, artifacts := [] },
             emitted := [(.working, "Analyzing query and routing to appropriate agent...")] },
      producedAny := false, completed := false }
    "card fetch failed" (by decide)).1 (by decide)

theorem processEvent_ok_nonterminal {agent : String} {st st2 : RelayState}
    {e : RemoteEvent} (h : processEvent agent st e = .ok st2)
    (hnt : st.u.task.state.isTerminal = false)
    (hterm : e.isTerminalStatus = false) :
    st2.u.task.state.isTerminal = false := by
  cases e with
  | artifactUpdate name parts =>
    simp only [processEvent] at h
    cases haa : addArtifact st.u parts name with
    | none => rw [haa] at h; cases h
    | some u =>
      rw [haa] at h
      obtain rfl := ExecResult.ok.inj h
      obtain ⟨_, rfl⟩ := addArtifact_eq_some haa
      exact hnt
  | wrappedArtifact name parts =>
    simp only [processEvent] at h
    cases haa : addArtifact st.u parts name with
    | none => rw [haa] at h; cases h
    | some u =>
      rw [haa] at h
      obtain rfl := ExecResult.ok.inj h
      obtain ⟨_, rfl⟩ := addArtifact_eq_some haa
      exact hnt
  | statusUpdate state message =>
    simp only [processEvent] at h
    cases hus : updateStatus st.u state (statusText agent state message) with
    | none => rw [hus] at h; cases h
    | some u =>
      rw [hus] at h
      obtain rfl := ExecResult.ok.inj h
      obtain ⟨_, rfl⟩ := updateStatus_eq_some hus
      simpa [RemoteEvent.isTerminalStatus] using hterm
  | wrappedStatus state message =>
    simp only [processEvent] at h
    cases hus : updateStatus st.u state (statusText agent state message) with
    | none => rw [hus] at h; cases h
    | some u =>
      rw [hus] at h
      obtain rfl := ExecResult.ok.inj h
      obtain ⟨_, rfl⟩ := updateStatus_eq_some hus
      simpa [RemoteEvent.isTerminalStatus] using hterm
  | other =>
    simp only [processEvent] at h
    obtain rfl := ExecResult.ok.inj h
    exact hnt

theorem relayEvents_wf_ok {agent : String} {st : RelayState} {es : List RemoteEvent}
    (hnt : st.u.task.state.isTerminal = false)
    (hwf : terminalOnlyLast es = true) :
    ∃ st', relayEvents agent st es = .ok st' := by
  induction es generalizing st with
  | nil => exact ⟨st, rfl⟩
  | cons e es ih =>
    cases hp : processEvent agent st e with
    | exn st3 m =>
      exact absurd (processEvent_exn_facts hp).2 (by simp [hnt])
    | ok st2 =>
      unfold terminalOnlyLast at hwf
      by_cases ht : e.isTerminalStatus = true
      · rw [if_pos ht] at hwf
        have hes : es = [] := by simpa using hwf
        subst hes
        refine ⟨st2, ?_⟩
        show (match processEvent agent st e with
          | .exn st' msg => ExecResult.exn st' msg
          | .ok st' => relayEvents agent st' []) = .ok st2
        rw [hp]
        rfl
      · rw [if_neg ht] at hwf
        rw [Bool.not_eq_true] at ht
        obtain ⟨st', h'⟩ := ih (processEvent_ok_nonterminal hp hnt ht) hwf
        refine ⟨st', ?_⟩
        show (match processEvent agent st e with
          | .exn st' msg => ExecResult.exn st' msg
          | .ok st' => relayEvents agent st' es) = .ok st'
        rw [hp]
        exact h'

theorem afterWorking_wf_artifacts {routing : RoutingResult} {events : List RemoteEvent}
    {streamError : Option String} {u1 : UpdaterState}
    (hnt : u1.task.state.isTerminal = false)
    (hwf : terminalOnlyLast events = true)
    (hpa : events.any RemoteEvent.touches = true) :
    ((afterWorking routing none events streamError u1).state).u.task.artifacts =
      u1.task.artifacts ++ eventArtifacts events := by
  obtain ⟨st2, hre⟩ := @relayEvents_wf_ok routing.agent
    { u := u1, producedAny := false, completed := false } events hnt hwf
  show ((afterRelay routing.agent streamError
      (relayEvents routing.agent
        { u := u1, producedAny := false, completed := false } events)).state).u.task.artifacts = _
  rw [hre]
  obtain ⟨ha, hpr, _⟩ := relayEvents_ok_facts hre
  have ha' : st2.u.task.artifacts = u1.task.artifacts ++ eventArtifacts events := ha
  have hpa2 : st2.producedAny = true := by
    have hpr' : st2.producedAny = (false || events.any RemoteEvent.touches) := hpr
    rw [hpa] at hpr'
    simpa using hpr'
  cases streamError with
  | some msg => exact ha'
  | none =>
    show ((finishRelay routing.agent st2).state).u.task.artifacts = _
    rw [@finishRelay_state_artifacts routing.agent st2 hpa2]
    exact ha'

theorem executeAttempt_wf_artifacts {routing : RoutingResult} {task0 : Task}
    {events : List RemoteEvent} {streamError : Option String}
    (hnt : task0.state.isTerminal = false)
    (hwf : terminalOnlyLast events = true)
    (hpa : events.any RemoteEvent.touches = true) :
    ((executeAttempt routing task0 none events streamError).state).u.task.artifacts =
      task0.artifacts ++ eventArtifacts events := by
  unfold executeAttempt
  rw [updateStatus_of_nonterminal
    (show ({ task := task0, emitted := [] } : UpdaterState).task.state.isTerminal = false
      from hnt)]
  show ((afterWorking routing none events streamError
      { task := { id := task0.id, contextId := task0.contextId, state := .working,
                  artifacts := task0.artifacts },
        emitted := [(.working, "Analyzing query and routing to appropriate agent...")] }).state).u.task.artifacts = _
  exact @afterWorking_wf_artifacts routing events streamError
    { task := { id := task0.id, contextId := task0.contextId, state := .working,
                artifacts := task0.artifacts },
      emitted := [(.working, "Analyzing query and routing to appropriate agent...")] }
    rfl hwf hpa

/-- C6: whenever the stream yields at least one ArtifactEvent, the final
Task's artifact list is the initial one extended by exactly the relayed
artifacts in arrival order — none removed or mutated, hence non-empty.
The first part covers every run on which `execute` returns normally; the
second covers every stream of the shape the protocol promises (a terminal
status event only in final position, §6), including runs that end with the
exception escaping (for example a stream ending in a `failed` status,
whose `complete()` and handler transitions are both rejected). -/
theorem relay_artifacts_order (routing : RoutingResult) (task0 : Task)
    (events : List RemoteEvent) (streamError : Option String)
    (hne : eventArtifacts events ≠ []) :
    (∀ st, executeModel routing task0 none events streamError = .ok st →
      st.u.task.artifacts = task0.artifacts ++ eventArtifacts events ∧
      st.u.task.artifacts ≠ []) ∧
    (task0.state.isTerminal = false → terminalOnlyLast events = true →
      ((executeModel routing task0 none events streamError).state).u.task.artifacts =
        task0.artifacts ++ eventArtifacts events ∧
      ((executeModel routing task0 none events streamError).state).u.task.artifacts ≠ []) := by
  have hpa : events.any RemoteEvent.touches = true := any_touches_of_eventArtifacts_ne hne
  constructor
  · intro st hok
    suffices hmain : st.u.task.artifacts = task0.artifacts ++ eventArtifacts events by
      refine ⟨hmain, fun hc => hne ?_⟩
      rw [hmain] at hc
      exact (List.append_eq_nil.mp hc).2
    unfold executeModel at hok
    cases hea : executeAttempt routing task0 none events streamError with
    | ok st0 =>
      rw [hea] at hok
      obtain rfl : st0 = st := ExecResult.ok.inj hok
      exact executeAttempt_ok_artifacts hpa hea
    | exn st' msg =>
      rw [hea] at hok
      have hok' : exceptHandler st' msg = .ok st := hok
      unfold exceptHandler at hok'
      cases hus : updateStatus st'.u .failed ("Routing failed: " ++ msg) with
      | none => rw [hus] at hok'; cases hok'
      | some u =>
        rw [hus] at hok'
        obtain ⟨hnt', hu⟩ := updateStatus_eq_some hus
        obtain rfl : { st' with u := u } = st := ExecResult.ok.inj hok'
        have hart := executeAttempt_exn_artifacts hea hnt'
        have hart2 : u.task.artifacts = st'.u.task.artifacts := by rw [hu]
        show u.task.artifacts = task0.artifacts ++ eventArtifacts events
        rw [hart2]
        exact hart
  · intro hnt hwf
    have h1 := executeModel_state_artifacts routing task0 none events streamError
    have h2 := @executeAttempt_wf_artifacts routing task0 events streamError hnt hwf hpa
    rw [h1, h2]
    refine ⟨rfl, fun hc => hne ?_⟩
    exact (List.append_eq_nil.mp hc).2

/-- Witness for C6: one relayed artifact on a normally completed run, and
the same accounting on a protocol-conforming stream ending in a `failed`
status, whose run ends with the exception escaping. -/
theorem relay_artifacts_order_witness :
    ({ u := { task := { id := "t1", contextId := "c1", state := .completed,
                        artifacts := [⟨"a1", ["hello"]⟩] },
              emitted := [(.working, "Analyzing query and routing to appropriate agent..."),
                          (.completed, "")] },
       producedAny := true, completed := false } : RelayState).u.task.artifacts =
      (new_task "t1" "c1").artifacts ++
        eventArtifacts [RemoteEvent.artifactUpdate "a1" ["hello"]] ∧
    ((executeModel fallbackResult (new_task "t2" "c2") none
        [RemoteEvent.artifactUpdate "a1" ["hello"], RemoteEvent.statusUpdate .failed none]
        none).state).u.task.artifacts =
      (new_task "t2" "c2").artifacts ++
        eventArtifacts [RemoteEvent.artifactUpdate "a1" ["hello"],
                        RemoteEvent.statusUpdate .failed none] :=
  ⟨((relay_artifacts_order fallbackResult (new_task "t1" "c1")
      [RemoteEvent.artifactUpdate "a1" ["hello"]] none (by decide)).1
      { u := { task := { id := "t1", contextId := "c1", state := .completed,
                         artifacts := [⟨"a1", ["hello"]⟩] },
               emitted := [(.working, "Analyzing query and routing to appropriate agent..."),
                           (.completed, "")] },
        producedAny := true, completed := false }
      (by decide)).1,
   ((relay_artifacts_order fallbackResult (new_task "t2" "c2")
      [RemoteEvent.artifactUpdate "a1" ["hello"], RemoteEvent.statusUpdate .failed none]
      none (by decide)).2 (by decide) (by decide)).1⟩

/-! ## Theorems: dispatcher and cancellation -/

theorem dispatchExecute_react_iff (ctx : ContextModel) :
    dispatchExecute ctx = .react ↔ dispatchMode ctx = .str "react" := by
  unfold dispatchExecute
  cases hm : dispatchMode ctx with
  | str s =>
    by_cases hs : s = "react"
    · subst hs; simp
    · simp [hs]
  | null => simp
  | bool b => simp
  | num n => simp
  | arr xs => simp
  | obj fs => simp

theorem dispatchMode_react_iff (ctx : ContextModel) :
    dispatchMode ctx = .str "react" ↔
      ∃ m fields, ctx.message = some m ∧ m.metadata = some fields ∧
        fields.reverse.lookup "orchestrator_mode" = some (.str "react") := by
  constructor
  · intro h
    unfold dispatchMode at h
    cases hm : ctx.message with
    | none => rw [hm] at h; exact absurd h (by simp)
    | some m =>
      rw [hm] at h
      have h1 : (match m.metadata with
          | none => JValue.str "simple"
          | some fields =>
            if fields.isEmpty = true then JValue.str "simple"
            else dictGet fields "orchestrator_mode" (JValue.str "simple")) =
          JValue.str "react" := h
      cases hd : m.metadata with
      | none => rw [hd] at h1; exact absurd h1 (by simp)
      | some fields =>
        rw [hd] at h1
        have h2 : (if fields.isEmpty = true then JValue.str "simple"
            else dictGet fields "orchestrator_mode" (JValue.str "simple")) =
            JValue.str "react" := h1
        by_cases he : fields.isEmpty = true
        · rw [if_pos he] at h2; exact absurd h2 (by simp)
        · rw [if_neg he] at h2
          refine ⟨m, fields, rfl, hd, ?_⟩
          unfold dictGet at h2
          cases hl : fields.reverse.lookup "orchestrator_mode" with
          | none => rw [hl] at h2; exact absurd h2 (by simp)
          | some v =>
            rw [hl] at h2
            have hv : v = .str "react" := h2
            rw [hv]
  · rintro ⟨m, fields, hm, hd, hl⟩
    unfold dispatchMode
    rw [hm]
    show (match m.metadata with
      | none => JValue.str "simple"
      | some fields =>
        if fields.isEmpty = true then JValue.str "simple"
        else dictGet fields "orchestrator_mode" (JValue.str "simple")) = JValue.str "react"
    rw [hd]
    show (if fields.isEmpty = true then JValue.str "simple"
        else dictGet fields "orchestrator_mode" (JValue.str "simple")) = JValue.str "react"
    have hne : fields.isEmpty = false := by
      cases fields with
      | nil => simp at hl
      | cons a l => rfl
    rw [if_neg (by simp [hne])]
    unfold dictGet
    rw [hl]

/-- C8: `DispatchingExecutor.execute` delegates to the multi-step (react)
strategy exactly when the message metadata carries
`orchestrator_mode = "react"`; with the flag absent, the metadata missing
or empty, or the flag holding any other value, the direct (simple)
strategy runs. -/
theorem dispatch_mode_selection (ctx : ContextModel) :
    (dispatchExecute ctx = .react ↔
      ∃ m fields, ctx.message = some m ∧ m.metadata = some fields ∧
        fields.reverse.lookup "orchestrator_mode" = some (.str "react")) ∧
    (dispatchExecute ctx = .react ∨ dispatchExecute ctx = .simple) := by
  refine ⟨(dispatchExecute_react_iff ctx).trans (dispatchMode_react_iff ctx), ?_⟩
  cases h : dispatchExecute ctx with
  | simple => exact Or.inr rfl
  | react => exact Or.inl rfl

/-- Witness for C8: a context whose metadata selects the react strategy. -/
theorem dispatch_mode_selection_witness :
    dispatchExecute
      { message := some { metadata := some [("orchestrator_mode", .str "react")] } } =
      .react :=
  (dispatch_mode_selection
    { message := some { metadata := some [("orchestrator_mode", .str "react")] } }).1.mpr
    ⟨_, _, rfl, rfl, rfl⟩

/-- C9: `DispatchingExecutor.cancel` always delegates to the direct
(simple) strategy's cancel: it equals `routerCancel` on the same updater
state, is independent of the request context, and in particular still runs
the direct strategy's cancel when the context's mode flag would select the
react strategy for execution. -/
theorem dispatch_cancel_direct (ctx ctx' : ContextModel) (u : UpdaterState) :
    dispatchCancel ctx u = routerCancel u ∧
    dispatchCancel ctx u = dispatchCancel ctx' u ∧
    (dispatchExecute ctx = .react → dispatchCancel ctx u = routerCancel u) :=
  ⟨rfl, rfl, fun _ => rfl⟩

/-- Witness for C9: cancellation on a react-mode context still goes to the
direct strategy's cancel. -/
theorem dispatch_cancel_direct_witness :
    dispatchCancel
      { message := some { metadata := some [("orchestrator_mode", .str "react")] } }
      { task := new_task "t1" "c1", emitted := [] } =
      routerCancel { task := new_task "t1" "c1", emitted := [] } :=
  (dispatch_cancel_direct
    { message := some { metadata := some [("orchestrator_mode", .str "react")] } }
    { message := none }
    { task := new_task "t1" "c1", emitted := [] }).2.2 (by decide)

/-- C7: both leaf specialists' `cancel` raise a `ServerError` wrapping an
`UnsupportedOperationError` carrying an agent-specific message; the call
never returns a task (so it cannot silently succeed or move a task to
`cancelled`), and the distinct error type lets callers tell "cancellation
unsupported" apart from an actual cancellation. -/
theorem leaf_cancel_unsupported (t : Task) :
    medGemmaCancel t =
      .error ⟨.unsupportedOperation
        "Cancel operation is not supported for MedGemma agent"⟩ ∧
    clinicalCancel t =
      .error ⟨.unsupportedOperation
        "Cancel operation is not supported for Clinical agent"⟩ ∧
    (medGemmaCancel t).isOk = false ∧
    (clinicalCancel t).isOk = false :=
  ⟨rfl, rfl, rfl, rfl⟩

end MedAgentHub
